import Mathlib

/-!
Shallow embedding of the Gotham Night Patrol simulator
(`lesson_3/solution.py`) together with proofs about its behaviour.

Randomness in the Python source (`random.choice`, `random.randint`,
`random.random`, `random.sample`) is modelled by explicit oracle
parameters: each random draw becomes an argument of the embedded
function.  `random.randint(a, b)` applied to an oracle value `r : Nat`
is modelled as `a + r % (b - a + 1)`, which ranges exactly over
`[a, b]`; `random.choice(l)` is modelled as indexing `l` at
`r % l.length`; the `random.random() < 0.7` reallocation test becomes a
`Bool` oracle; `random.sample` results are passed in directly as lists.
Logging (`log_patrol_event`) and the cosmetic `time.sleep` calls are
I/O with no effect on any computed value and are omitted.
-/

/-- One member of the Bat-Family roster: a dict
`{"name": ..., "specialty": ..., "effectiveness": ...}` in the source. -/
structure Hero where
  name : String
  specialty : String
  effectiveness : Nat
deriving DecidableEq, Repr

/-- One crime event: a dict
`{"type": ..., "location": ..., "severity": ..., "status": ...}` in the
source.  The Python key `"type"` is a Lean keyword, hence `ctype`. -/
structure Crime where
  ctype : String
  location : String
  severity : Nat
  status : String
deriving DecidableEq, Repr

/-- The result dict built by `dispatch_hero`. -/
structure Outcome where
  success : Bool
  message : String
  details : String
deriving DecidableEq, Repr

/-- `GOTHAM_AREAS`: the fixed catalog of 8 areas. -/
def GOTHAM_AREAS : List String :=
  ["Amusement Mile", "Diamond District", "East End", "Financial District",
   "Gotham Heights", "Robinson Park", "Chinatown", "Arkham Asylum"]

/-- `BAT_FAMILY`: the fixed roster of 5 heroes. -/
def BAT_FAMILY : List Hero :=
  [⟨"Batman", "Combat", 10⟩,
   ⟨"Robin", "Acrobatics", 7⟩,
   ⟨"Batgirl", "Hacking", 8⟩,
   ⟨"Nightwing", "Stealth", 9⟩,
   ⟨"Red Hood", "Firearms", 8⟩]

/-- `CRIME_TYPES`: the fixed catalog of 6 crime types. -/
def CRIME_TYPES : List String :=
  ["Robbery", "Assault", "Kidnapping", "Drug Deal", "Illegal Weapons",
   "Super-villain Activity"]

/-- `SPECIALTY_MATCHING.get(t, [])`: the dict of specialty affinities per
crime type, with the empty-list default used at every call site. -/
def SPECIALTY_MATCHING (t : String) : List String :=
  if t = "Robbery" then ["Combat", "Stealth"]
  else if t = "Assault" then ["Combat", "Acrobatics"]
  else if t = "Kidnapping" then ["Stealth", "Combat"]
  else if t = "Drug Deal" then ["Stealth", "Firearms"]
  else if t = "Illegal Weapons" then ["Firearms", "Combat"]
  else if t = "Super-villain Activity" then ["Combat", "Acrobatics", "Firearms"]
  else []

/-- `CRIME_PRIORITY.get(t, 999)`: the priority dict (lower = higher
priority), with the default 999 used at its only call site
(`prioritize_crimes`). -/
def CRIME_PRIORITY (t : String) : Nat :=
  if t = "Super-villain Activity" then 1
  else if t = "Kidnapping" then 2
  else if t = "Assault" then 3
  else if t = "Robbery" then 4
  else if t = "Illegal Weapons" then 5
  else if t = "Drug Deal" then 6
  else 999

/-- `random.randint(1, 100)` applied to oracle value `r`. -/
def dispatch_roll (r : Nat) : Nat := 1 + r % 100

/-- The `success_chance` computed inside `dispatch_hero`:
`min(95, base + specialty_bonus - severity_penalty + batman_bonus)`
followed by `max(5, ...)`.  `Int` because the sum can go negative
before clamping. -/
def success_chance (hero : Hero) (crime : Crime) : Int :=
  let base_chance : Int := (hero.effectiveness : Int) * 10
  let specialty_bonus : Int :=
    if (SPECIALTY_MATCHING crime.ctype).contains hero.specialty then 20 else 0
  let severity_penalty : Int := (crime.severity : Int) * 5
  let batman_bonus : Int := if hero.name = "Batman" then 15 else 0
  max 5 (min 95 (base_chance + specialty_bonus - severity_penalty + batman_bonus))

/-- `dispatch_hero(hero, crime)`, with the roll oracle made explicit. -/
def dispatch_hero (hero : Hero) (crime : Crime) (r : Nat) : Outcome :=
  let chance := success_chance hero crime
  let roll : Int := (dispatch_roll r : Int)
  let success := decide (roll ≤ chance)
  if success then
    { success := true
      message := hero.name ++ " successfully stopped the " ++ crime.ctype
        ++ " in " ++ crime.location ++ "."
      details := "Success chance: " ++ toString chance ++ "%, Roll: " ++ toString roll }
  else
    { success := false
      message := hero.name ++ " failed to stop the " ++ crime.ctype
        ++ " in " ++ crime.location ++ "."
      details := "Success chance: " ++ toString chance ++ "%, Roll: " ++ toString roll }

/-- C1: for any hero with effectiveness in [1,10] and crime with severity
in [1,10], the success chance equals the claimed clamped formula
(effectiveness*10, +20 on specialty match, −severity*5, +15 for Batman,
clamped to [5,95]), hence always lies in [5,95]; and the dispatch
outcome is a success exactly when the uniform roll in [1,100] is at most
the success chance. -/
theorem dispatch_hero_chance_clamped_and_roll (hero : Hero) (crime : Crime) (r : Nat)
    (heff : 1 ≤ hero.effectiveness ∧ hero.effectiveness ≤ 10)
    (hsev : 1 ≤ crime.severity ∧ crime.severity ≤ 10) :
    success_chance hero crime =
      max 5 (min 95 ((hero.effectiveness : Int) * 10
        + (if (SPECIALTY_MATCHING crime.ctype).contains hero.specialty then 20 else 0)
        - (crime.severity : Int) * 5
        + (if hero.name = "Batman" then 15 else 0)))
    ∧ 5 ≤ success_chance hero crime
    ∧ success_chance hero crime ≤ 95
    ∧ 1 ≤ dispatch_roll r ∧ dispatch_roll r ≤ 100
    ∧ ((dispatch_hero hero crime r).success = true ↔
        (dispatch_roll r : Int) ≤ success_chance hero crime) := by
  refine ⟨rfl, ?_, ?_, ?_, ?_, ?_⟩
  · unfold success_chance
    dsimp only
    split_ifs <;> omega
  · unfold success_chance
    dsimp only
    split_ifs <;> omega
  · unfold dispatch_roll
    omega
  · unfold dispatch_roll
    have := Nat.mod_lt r (show 0 < 100 by omega)
    omega
  · by_cases h : (dispatch_roll r : Int) ≤ success_chance hero crime <;>
      simp [dispatch_hero, h]

/-- Witness for C1: Batman (effectiveness 10, specialty match, named
bonus) against a severity-3 Super-villain Activity; the clamp ceiling
yields 95 (not 120), and roll 10 succeeds. -/
theorem dispatch_hero_chance_clamped_and_roll_witness :
    success_chance ⟨"Batman", "Combat", 10⟩
        ⟨"Super-villain Activity", "East End", 3, "Active"⟩ ≤ 95
    ∧ success_chance ⟨"Batman", "Combat", 10⟩
        ⟨"Super-villain Activity", "East End", 3, "Active"⟩ = 95
    ∧ (dispatch_hero ⟨"Batman", "Combat", 10⟩
        ⟨"Super-villain Activity", "East End", 3, "Active"⟩ 9).success = true :=
  ⟨(dispatch_hero_chance_clamped_and_roll ⟨"Batman", "Combat", 10⟩
      ⟨"Super-villain Activity", "East End", 3, "Active"⟩ 9
      (by decide) (by decide)).2.2.1,
   by decide, by decide⟩

/-- The sort key used by `prioritize_crimes`:
`lambda c: (-c["severity"], CRIME_PRIORITY.get(c["type"], 999))`. -/
def crime_sort_key (c : Crime) : Int × Nat :=
  (-(c.severity : Int), CRIME_PRIORITY c.ctype)

/-- Lexicographic comparison of sort keys, as Python compares tuples. -/
def crime_key_lex (a b : Crime) : Prop :=
  (crime_sort_key a).1 < (crime_sort_key b).1
    ∨ ((crime_sort_key a).1 = (crime_sort_key b).1
        ∧ (crime_sort_key a).2 ≤ (crime_sort_key b).2)

instance crime_key_lex_decidable : DecidableRel crime_key_lex := fun a b => by
  unfold crime_key_lex
  infer_instance

instance crime_key_lex_total : IsTotal Crime crime_key_lex :=
  ⟨fun a b => by
    unfold crime_key_lex
    omega⟩

instance crime_key_lex_trans : IsTrans Crime crime_key_lex :=
  ⟨fun a b c h1 h2 => by
    unfold crime_key_lex at h1 h2 ⊢
    omega⟩

/-- `prioritize_crimes(crimes)`: Python `sorted` is a stable sort by the
key, and a stable sort is determined uniquely by the key preorder, so
it is modelled by the stable `List.insertionSort` under the
lexicographic key comparison. -/
def prioritize_crimes (crimes : List Crime) : List Crime :=
  crimes.insertionSort crime_key_lex

theorem CRIME_PRIORITY_le_999 (t : String) : CRIME_PRIORITY t ≤ 999 := by
  unfold CRIME_PRIORITY
  split_ifs <;> omega

/-- C2: `prioritize_crimes` returns a permutation of its input that is
sorted by severity descending, with ties among equal severities broken
by the fixed crime-type priority table ascending and types not in the
table (priority 999) sorting last; the sort is stable (any key-ordered
pair keeps its relative order), and the multiset of statuses is
untouched.  Determinism is definitional: the model is a pure function
of its input. -/
theorem prioritize_crimes_sorted_stable_perm (crimes : List Crime) :
    (prioritize_crimes crimes).Perm crimes
    ∧ (prioritize_crimes crimes).Pairwise (fun a b => b.severity ≤ a.severity)
    ∧ (prioritize_crimes crimes).Pairwise (fun a b =>
        a.severity = b.severity →
          CRIME_PRIORITY a.ctype ≤ CRIME_PRIORITY b.ctype)
    ∧ (prioritize_crimes crimes).Pairwise (fun a b =>
        a.severity = b.severity → CRIME_PRIORITY a.ctype = 999 →
          CRIME_PRIORITY b.ctype = 999)
    ∧ (∀ a b, crime_key_lex a b → [a, b].Sublist crimes →
        [a, b].Sublist (prioritize_crimes crimes))
    ∧ ((prioritize_crimes crimes).map Crime.status).Perm
        (crimes.map Crime.status) := by
  have hsorted : (prioritize_crimes crimes).Pairwise crime_key_lex :=
    List.sorted_insertionSort crime_key_lex crimes
  have hperm : (prioritize_crimes crimes).Perm crimes :=
    List.perm_insertionSort crime_key_lex crimes
  refine ⟨hperm, ?_, ?_, ?_, ?_, hperm.map Crime.status⟩
  · refine hsorted.imp ?_
    intro a b hab
    simp only [crime_key_lex, crime_sort_key] at hab
    omega
  · refine hsorted.imp ?_
    intro a b hab
    simp only [crime_key_lex, crime_sort_key] at hab
    intro hsev
    omega
  · refine hsorted.imp ?_
    intro a b hab
    have hb := CRIME_PRIORITY_le_999 b.ctype
    simp only [crime_key_lex, crime_sort_key] at hab
    intro hsev h999
    omega
  · intro a b hab hsub
    exact List.pair_sublist_insertionSort hab hsub

/-- Witness for C2: a concrete three-crime list, exercising the
stability clause on a tied pair. -/
theorem prioritize_crimes_sorted_stable_perm_witness :
    [⟨"Robbery", "East End", 5, "Active"⟩,
     (⟨"Robbery", "Chinatown", 5, "Active"⟩ : Crime)].Sublist
      (prioritize_crimes
        [⟨"Drug Deal", "Arkham Asylum", 8, "Active"⟩,
         ⟨"Robbery", "East End", 5, "Active"⟩,
         ⟨"Robbery", "Chinatown", 5, "Active"⟩]) :=
  (prioritize_crimes_sorted_stable_perm
      [⟨"Drug Deal", "Arkham Asylum", 8, "Active"⟩,
       ⟨"Robbery", "East End", 5, "Active"⟩,
       ⟨"Robbery", "Chinatown", 5, "Active"⟩]).2.2.2.2.1
    ⟨"Robbery", "East End", 5, "Active"⟩
    ⟨"Robbery", "Chinatown", 5, "Active"⟩
    (by decide)
    (by decide)

/-- The score a hero gets for a crime inside `match_hero_to_crime`:
effectiveness, +3 for a specialty match, +2 for Batman. -/
def hero_score (hero : Hero) (crime : Crime) : Nat :=
  hero.effectiveness
    + (if (SPECIALTY_MATCHING crime.ctype).contains hero.specialty then 3 else 0)
    + (if hero.name = "Batman" then 2 else 0)

/-- The `for hero in available_heroes` loop of `match_hero_to_crime`,
threading `best_hero` and `best_score` (which starts at -1). -/
def match_go (crime : Crime) : List Hero → Option Hero → Int → Option Hero
  | [], best, _ => best
  | hero :: rest, best, best_score =>
    if (hero_score hero crime : Int) > best_score then
      match_go crime rest (some hero) (hero_score hero crime : Int)
    else
      match_go crime rest best best_score

/-- `match_hero_to_crime(available_heroes, crime)`. -/
def match_hero_to_crime (available_heroes : List Hero) (crime : Crime) :
    Option Hero :=
  if available_heroes = [] then none
  else match_go crime available_heroes none (-1)

theorem match_go_spec (crime : Crime) (l : List Hero) :
    ∀ b : Hero, ∃ h : Hero,
      match_go crime l (some b) (hero_score b crime : Int) = some h
      ∧ ((h = b ∧ ∀ g ∈ l, hero_score g crime ≤ hero_score b crime)
        ∨ (∃ l1 l2, l = l1 ++ h :: l2
            ∧ hero_score b crime < hero_score h crime
            ∧ (∀ g ∈ l1, hero_score g crime < hero_score h crime)
            ∧ (∀ g ∈ l2, hero_score g crime ≤ hero_score h crime))) := by
  induction l with
  | nil =>
    intro b
    exact ⟨b, rfl, Or.inl ⟨rfl, by simp⟩⟩
  | cons x rest ih =>
    intro b
    by_cases hx : (hero_score x crime : Int) > (hero_score b crime : Int)
    · obtain ⟨h, heq, hspec⟩ := ih x
      refine ⟨h, by rw [match_go, if_pos hx]; exact heq, Or.inr ?_⟩
      have hbx : hero_score b crime < hero_score x crime := by exact_mod_cast hx
      rcases hspec with ⟨rfl, hall⟩ | ⟨l1, l2, rfl, hlt, h1, h2⟩
      · exact ⟨[], rest, rfl, hbx, by simp, hall⟩
      · refine ⟨x :: l1, l2, rfl, by omega, ?_, h2⟩
        intro g hg
        rcases List.mem_cons.mp hg with rfl | hg'
        · omega
        · exact h1 g hg'
    · obtain ⟨h, heq, hspec⟩ := ih b
      refine ⟨h, by rw [match_go, if_neg hx]; exact heq, ?_⟩
      have hxb : hero_score x crime ≤ hero_score b crime := by
        exact_mod_cast le_of_not_lt hx
      rcases hspec with ⟨rfl, hall⟩ | ⟨l1, l2, rfl, hlt, h1, h2⟩
      · refine Or.inl ⟨rfl, ?_⟩
        intro g hg
        rcases List.mem_cons.mp hg with rfl | hg'
        · exact hxb
        · exact hall g hg'
      · refine Or.inr ⟨x :: l1, l2, rfl, hlt, ?_, h2⟩
        intro g hg
        rcases List.mem_cons.mp hg with rfl | hg'
        · omega
        · exact h1 g hg'

/-- C3: `match_hero_to_crime` returns `None` on an empty pool (a
sentinel, not an exception); on a non-empty pool it returns a hero of
maximal score (effectiveness, +3 if the specialty is in the crime
type's affinity list, +2 for Batman), and ties are broken by pool
iteration order: every hero strictly before the chosen one scores
strictly less. -/
theorem match_hero_to_crime_argmax (available_heroes : List Hero) (crime : Crime) :
    match_hero_to_crime [] crime = none
    ∧ (available_heroes ≠ [] → ∃ h l1 l2,
        match_hero_to_crime available_heroes crime = some h
        ∧ available_heroes = l1 ++ h :: l2
        ∧ (∀ g ∈ l1, hero_score g crime < hero_score h crime)
        ∧ (∀ g ∈ available_heroes, hero_score g crime ≤ hero_score h crime)) := by
  refine ⟨rfl, ?_⟩
  intro hne
  match available_heroes, hne with
  | x :: rest, _ =>
    have hx : (hero_score x crime : Int) > (-1 : Int) := by
      have : (0 : Int) ≤ (hero_score x crime : Int) := Int.natCast_nonneg _
      omega
    have hstep : match_hero_to_crime (x :: rest) crime
        = match_go crime rest (some x) (hero_score x crime : Int) := by
      rw [match_hero_to_crime, if_neg (by simp), match_go, if_pos hx]
    obtain ⟨h, heq, hspec⟩ := match_go_spec crime rest x
    rcases hspec with ⟨rfl, hall⟩ | ⟨l1, l2, rfl, hlt, h1, h2⟩
    · refine ⟨h, [], rest, hstep.trans heq, rfl, by simp, ?_⟩
      intro g hg
      rcases List.mem_cons.mp hg with rfl | hg'
      · exact le_refl _
      · exact hall g hg'
    · refine ⟨h, x :: l1, l2, hstep.trans heq, rfl, ?_, ?_⟩
      · intro g hg
        rcases List.mem_cons.mp hg with rfl | hg'
        · exact hlt
        · exact h1 g hg'
      · intro g hg
        rcases List.mem_cons.mp hg with rfl | hg'
        · omega
        · rcases List.mem_append.mp hg' with hg1 | hg2
          · exact le_of_lt (h1 g hg1)
          · rcases List.mem_cons.mp hg2 with rfl | hg3
            · exact le_refl _
            · exact h2 g hg3

/-- Witness for C3: the empty pool returns the `none` sentinel, and a
concrete two-hero pool yields an argmax hero. -/
theorem match_hero_to_crime_argmax_witness :
    match_hero_to_crime [] ⟨"Robbery", "East End", 5, "Active"⟩ = none
    ∧ (∃ h l1 l2,
        match_hero_to_crime
          [⟨"Robin", "Acrobatics", 7⟩, ⟨"Batman", "Combat", 10⟩]
          ⟨"Robbery", "East End", 5, "Active"⟩ = some h
        ∧ [(⟨"Robin", "Acrobatics", 7⟩ : Hero), ⟨"Batman", "Combat", 10⟩]
            = l1 ++ h :: l2
        ∧ (∀ g ∈ l1, hero_score g ⟨"Robbery", "East End", 5, "Active"⟩
            < hero_score h ⟨"Robbery", "East End", 5, "Active"⟩)
        ∧ (∀ g ∈ [(⟨"Robin", "Acrobatics", 7⟩ : Hero), ⟨"Batman", "Combat", 10⟩],
            hero_score g ⟨"Robbery", "East End", 5, "Active"⟩
              ≤ hero_score h ⟨"Robbery", "East End", 5, "Active"⟩)) :=
  ⟨(match_hero_to_crime_argmax [] ⟨"Robbery", "East End", 5, "Active"⟩).1,
   (match_hero_to_crime_argmax
      [⟨"Robin", "Acrobatics", 7⟩, ⟨"Batman", "Combat", 10⟩]
      ⟨"Robbery", "East End", 5, "Active"⟩).2 (by decide)⟩

/-- `available_areas = [area for area in GOTHAM_AREAS if area not in
used_areas]`, computed each iteration of `generate_crime_events`. -/
def available_areas (used_areas : List String) : List String :=
  GOTHAM_AREAS.filter (fun area => decide (area ∉ used_areas))

/-- The `for _ in range(num_events)` loop body of
`generate_crime_events`.  Each iteration consumes one oracle triple:
the `random.choice(CRIME_TYPES)` index, the
`random.choice(available_areas)` index, and the `random.randint`
severity draw. -/
def generate_crime_events_go : List (Nat × Nat × Nat) → List String → List Crime
  | [], _ => []
  | (t, l, s) :: rest, used_areas =>
    if available_areas used_areas = [] then []
    else
      let crime_type := CRIME_TYPES.getD (t % CRIME_TYPES.length) ""
      let location := (available_areas used_areas).getD
        (l % (available_areas used_areas).length) ""
      let severity := if crime_type = "Super-villain Activity"
        then 7 + s % 4 else 3 + s % 6
      ⟨crime_type, location, severity, "Active"⟩ ::
        generate_crime_events_go rest (location :: used_areas)

/-- `generate_crime_events(num_events)`: the requested count is the
length of the oracle list, and `used_areas` starts empty. -/
def generate_crime_events (rolls : List (Nat × Nat × Nat)) : List Crime :=
  generate_crime_events_go rolls []

theorem getD_mod_mem (l : List String) (h : ¬ l = []) (n : Nat) :
    l.getD (n % l.length) "" ∈ l := by
  have hlen : 0 < l.length := List.length_pos.mpr h
  have hlt : n % l.length < l.length := Nat.mod_lt _ hlen
  rw [List.getD_eq_getElem?_getD, List.getElem?_eq_getElem hlt, Option.getD_some]
  exact List.getElem_mem hlt

theorem available_areas_nodup (used : List String) :
    (available_areas used).Nodup :=
  List.Nodup.filter _ (by decide)

theorem mem_available_areas {a : String} {used : List String} :
    a ∈ available_areas used ↔ a ∈ GOTHAM_AREAS ∧ a ∉ used := by
  simp [available_areas]

theorem available_areas_cons_length (used : List String) (loc : String)
    (hloc : loc ∈ available_areas used) :
    (available_areas (loc :: used)).length + 1 = (available_areas used).length := by
  have h1 : available_areas (loc :: used)
      = (available_areas used).filter (fun a => a != loc) := by
    unfold available_areas
    rw [List.filter_filter]
    refine (List.filter_congr ?_)
    intro a _
    by_cases h : a = loc <;> by_cases h2 : a ∈ used <;>
      simp [h, h2, List.mem_cons]
  rw [h1, ← List.Nodup.erase_eq_filter (available_areas_nodup used) loc,
    List.length_erase_of_mem hloc]
  have hpos : 0 < (available_areas used).length :=
    List.length_pos.mpr (List.ne_nil_of_mem hloc)
  omega

theorem generate_crime_events_go_mem (rolls : List (Nat × Nat × Nat)) :
    ∀ used_areas, ∀ c ∈ generate_crime_events_go rolls used_areas,
      c.status = "Active"
      ∧ (c.ctype = "Super-villain Activity" → 7 ≤ c.severity ∧ c.severity ≤ 10)
      ∧ (c.ctype ≠ "Super-villain Activity" → 3 ≤ c.severity ∧ c.severity ≤ 8)
      ∧ c.location ∈ GOTHAM_AREAS ∧ c.location ∉ used_areas := by
  induction rolls with
  | nil =>
    intro used c hc
    simp [generate_crime_events_go] at hc
  | cons roll rest ih =>
    intro used c hc
    obtain ⟨t, l, s⟩ := roll
    simp only [generate_crime_events_go] at hc
    split at hc
    · simp at hc
    · rename_i havail
      rcases List.mem_cons.mp hc with rfl | hc'
      · have hlocmem : (available_areas used).getD
            (l % (available_areas used).length) "" ∈ available_areas used :=
          getD_mod_mem _ havail _
        refine ⟨rfl, ?_, ?_, (mem_available_areas.mp hlocmem).1,
          (mem_available_areas.mp hlocmem).2⟩
        · intro hsva
          simp only [hsva, if_pos, Crime.severity]
          split <;> omega
        · intro hsva
          simp only [Crime.severity]
          split
          · rename_i heq
            exact absurd heq hsva
          · omega
      · have hrec := ih _ c hc'
        refine ⟨hrec.1, hrec.2.1, hrec.2.2.1, hrec.2.2.2.1, ?_⟩
        have : c.location ∉ _ :: used := hrec.2.2.2.2
        intro hmem
        exact this (List.mem_cons_of_mem _ hmem)

theorem generate_crime_events_go_locations_nodup (rolls : List (Nat × Nat × Nat)) :
    ∀ used_areas,
      ((generate_crime_events_go rolls used_areas).map Crime.location).Nodup := by
  induction rolls with
  | nil =>
    intro used
    simp [generate_crime_events_go]
  | cons roll rest ih =>
    intro used
    obtain ⟨t, l, s⟩ := roll
    simp only [generate_crime_events_go]
    split
    · simp
    · rename_i havail
      simp only [List.map_cons]
      refine List.nodup_cons.mpr ⟨?_, ih _⟩
      intro hmem
      obtain ⟨c, hc, hceq⟩ := List.mem_map.mp hmem
      have hnotin := (generate_crime_events_go_mem rest _ c hc).2.2.2.2
      exact hnotin (hceq ▸ List.mem_cons_self _ _)

theorem generate_crime_events_go_length (rolls : List (Nat × Nat × Nat)) :
    ∀ used_areas, (generate_crime_events_go rolls used_areas).length
      = min rolls.length (available_areas used_areas).length := by
  induction rolls with
  | nil =>
    intro used
    simp [generate_crime_events_go]
  | cons roll rest ih =>
    intro used
    obtain ⟨t, l, s⟩ := roll
    simp only [generate_crime_events_go]
    split
    · rename_i h
      simp [h]
    · rename_i h
      simp only [List.length_cons, ih]
      have hloc : (available_areas used).getD
          (l % (available_areas used).length) "" ∈ available_areas used :=
        getD_mod_mem _ h _
      have hlen := available_areas_cons_length used _ hloc
      omega

/-- C4: in every generated batch no two incidents share a location; every
incident is created with status `Active`; severity is in [7,10] for
Super-villain Activity and in [3,8] otherwise; and the batch length is
`min requested 8`, i.e. generation stops early (fewer incidents than
requested, not an error) exactly when the 8-area location pool runs
out. -/
theorem generate_crime_events_spec (rolls : List (Nat × Nat × Nat)) :
    ((generate_crime_events rolls).map Crime.location).Nodup
    ∧ (∀ c ∈ generate_crime_events rolls,
        c.status = "Active"
        ∧ (c.ctype = "Super-villain Activity" → 7 ≤ c.severity ∧ c.severity ≤ 10)
        ∧ (c.ctype ≠ "Super-villain Activity" → 3 ≤ c.severity ∧ c.severity ≤ 8))
    ∧ (generate_crime_events rolls).length = min rolls.length GOTHAM_AREAS.length
    ∧ (generate_crime_events rolls).length ≤ rolls.length := by
  have hava : available_areas [] = GOTHAM_AREAS := by
    simp [available_areas]
  refine ⟨generate_crime_events_go_locations_nodup rolls [], ?_, ?_, ?_⟩
  · intro c hc
    have h := generate_crime_events_go_mem rolls [] c hc
    exact ⟨h.1, h.2.1, h.2.2.1⟩
  · rw [generate_crime_events, generate_crime_events_go_length rolls [], hava]
  · rw [generate_crime_events, generate_crime_events_go_length rolls [], hava]
    omega

/-- Witness for C4: two oracle triples produce a Super-villain Activity
of severity 7 in Amusement Mile and a Robbery of severity 5 in East
End, with the membership and type hypotheses discharged concretely. -/
theorem generate_crime_events_spec_witness :
    (7 ≤ (⟨"Super-villain Activity", "Amusement Mile", 7, "Active"⟩ : Crime).severity
      ∧ (⟨"Super-villain Activity", "Amusement Mile", 7, "Active"⟩ : Crime).severity ≤ 10)
    ∧ (3 ≤ (⟨"Robbery", "East End", 5, "Active"⟩ : Crime).severity
      ∧ (⟨"Robbery", "East End", 5, "Active"⟩ : Crime).severity ≤ 8) :=
  ⟨((generate_crime_events_spec [(5, 0, 0), (0, 1, 2)]).2.1
      ⟨"Super-villain Activity", "Amusement Mile", 7, "Active"⟩ (by decide)).2.1
    (by decide),
   ((generate_crime_events_spec [(5, 0, 0), (0, 1, 2)]).2.1
      ⟨"Robbery", "East End", 5, "Active"⟩ (by decide)).2.2 (by decide)⟩

/-- Error kinds of the run loop.  The spec's ConfigurationError is the
Python ValueError raised by `validate_patrol_config`; the spec's
ResourceError is the ResourceException raised during reallocation. -/
inductive PatrolError where
  | resourceError
  | configError
deriving DecidableEq, Repr

/-- The state tracked across the Dispatching loop of `run_patrol`:
`available_heroes`, the processed crimes with their final statuses, and
the successes/failures/unhandled tallies. -/
structure DispatchResult where
  pool : List Hero
  crimes : List Crime
  successes : Nat
  failures : Nat
  unhandled : Nat
deriving DecidableEq, Repr

/-- The outcome of one whole `run_patrol` call: the returned
`patrol_success` boolean, the error surfaced in the log (if any), and
the run-scoped state the source tracks in local variables. -/
structure RunResult where
  success : Bool
  error : Option PatrolError
  crimes : List Crime
  successes : Nat
  failures : Nat
  unhandled : Nat
  pool : List Hero
  areas : List String
deriving DecidableEq, Repr

/-- `validate_patrol_config(num_heroes, num_areas)` as the predicate it
checks: the source raises ValueError on each violated bound and returns
True otherwise. -/
def validate_patrol_config (num_heroes num_areas : Nat) : Bool :=
  decide (1 ≤ num_heroes) && decide (num_heroes ≤ BAT_FAMILY.length)
    && decide (1 ≤ num_areas) && decide (num_areas ≤ GOTHAM_AREAS.length)

/-- The `for crime in prioritized_crimes` loop of `run_patrol`.  One
dispatch-roll oracle value is consumed per dispatched hero. -/
def dispatch_loop (patrol_areas : List String) :
    List Crime → List Hero → List Nat → DispatchResult
  | [], pool, _ => ⟨pool, [], 0, 0, 0⟩
  | crime :: rest, pool, rolls =>
    if crime.location ∈ patrol_areas then
      match match_hero_to_crime pool crime with
      | some best_hero =>
        let pool2 := pool.filter (fun h => decide ¬(h.name = best_hero.name))
        let result := dispatch_hero best_hero crime (rolls.headD 0)
        let r := dispatch_loop patrol_areas rest (pool2 ++ [best_hero]) rolls.tail
        if result.success then
          ⟨r.pool, { crime with status := "Resolved" } :: r.crimes,
            r.successes + 1, r.failures, r.unhandled⟩
        else
          ⟨r.pool, { crime with status := "Failed" } :: r.crimes,
            r.successes, r.failures + 1, r.unhandled⟩
      | none =>
        let r := dispatch_loop patrol_areas rest pool rolls
        ⟨r.pool, { crime with status := "Unhandled" } :: r.crimes,
          r.successes, r.failures, r.unhandled + 1⟩
    else
      let r := dispatch_loop patrol_areas rest pool rolls
      ⟨r.pool, { crime with status := "Outside Patrol" } :: r.crimes,
        r.successes, r.failures, r.unhandled + 1⟩

/-- `unpatrolled_crimes = [c for c in crime_events if c["location"] not
in patrol_areas]`. -/
def unpatrolled_crimes (crime_events : List Crime) (patrol_areas : List String) :
    List Crime :=
  crime_events.filter (fun c => decide (c.location ∉ patrol_areas))

/-- The reallocation test `len(unpatrolled_crimes) > 0 and
random.random() < 0.7`, with the 70 percent draw as a Bool oracle. -/
def do_reallocate (crime_events : List Crime) (patrol_areas : List String)
    (realloc : Bool) : Bool :=
  decide (¬ unpatrolled_crimes crime_events patrol_areas = []) && realloc

/-- The patrol set after the possible reallocation:
`patrol_areas.append(highest_priority["location"])` where
`highest_priority = prioritize_crimes(unpatrolled_crimes)[0]`. -/
def patrol_areas_after_realloc (crime_events : List Crime)
    (patrol_areas : List String) (realloc : Bool) : List String :=
  if do_reallocate crime_events patrol_areas realloc then
    patrol_areas ++
      [((prioritize_crimes (unpatrolled_crimes crime_events patrol_areas)).headD
          ⟨"", "", 0, ""⟩).location]
  else patrol_areas

/-- `run_patrol(num_heroes, num_areas)`.  Oracles: `selected_heroes` and
`patrol_areas` stand for the two `random.sample` draws, `crime_rolls`
for the draws inside `generate_crime_events`, `realloc` for the
`random.random() < 0.7` test, and `dispatch_rolls` for the success
rolls of `dispatch_hero`.  Exceptions are modelled by the `error`
field: the source catches them, logs, and returns False. -/
def run_patrol_full (num_heroes num_areas : Nat) (selected_heroes : List Hero)
    (patrol_areas : List String) (crime_rolls : List (Nat × Nat × Nat))
    (realloc : Bool) (dispatch_rolls : List Nat) : RunResult :=
  if validate_patrol_config num_heroes num_areas = false then
    ⟨false, some PatrolError.configError, [], 0, 0, 0, [], []⟩
  else
    let crime_events := generate_crime_events crime_rolls
    let patrol2 := patrol_areas_after_realloc crime_events patrol_areas realloc
    if do_reallocate crime_events patrol_areas realloc
        && decide (selected_heroes.length = 0) then
      ⟨false, some PatrolError.resourceError, crime_events, 0, 0, 0,
        selected_heroes, patrol2⟩
    else
      let r := dispatch_loop patrol2 (prioritize_crimes crime_events)
        selected_heroes dispatch_rolls
      ⟨decide (r.failures < r.successes) && decide (r.unhandled ≤ 1), none,
        r.crimes, r.successes, r.failures, r.unhandled, r.pool, patrol2⟩

/-- The boolean `run_patrol` actually returns (False on every error
path). -/
def run_patrol (num_heroes num_areas : Nat) (selected_heroes : List Hero)
    (patrol_areas : List String) (crime_rolls : List (Nat × Nat × Nat))
    (realloc : Bool) (dispatch_rolls : List Nat) : Bool :=
  (run_patrol_full num_heroes num_areas selected_heroes patrol_areas
    crime_rolls realloc dispatch_rolls).success

theorem match_hero_to_crime_some (pool : List Hero) (crime : Crime)
    (hne : ¬ pool = []) :
    ∃ h, match_hero_to_crime pool crime = some h ∧ h ∈ pool := by
  match pool, hne with
  | x :: rest, _ =>
    have hx : (hero_score x crime : Int) > (-1 : Int) := by
      have : (0 : Int) ≤ (hero_score x crime : Int) := Int.natCast_nonneg _
      omega
    have hstep : match_hero_to_crime (x :: rest) crime
        = match_go crime rest (some x) (hero_score x crime : Int) := by
      rw [match_hero_to_crime, if_neg (by simp), match_go, if_pos hx]
    obtain ⟨h, heq, hspec⟩ := match_go_spec crime rest x
    refine ⟨h, hstep.trans heq, ?_⟩
    rcases hspec with ⟨rfl, -⟩ | ⟨l1, l2, hdec, -, -, -⟩
    · exact List.mem_cons_self _ _
    · exact List.mem_cons_of_mem _ (hdec ▸ List.mem_append_right l1
        (List.mem_cons_self _ _))

theorem match_hero_to_crime_mem {pool : List Hero} {crime : Crime} {h : Hero}
    (heq : match_hero_to_crime pool crime = some h) : h ∈ pool := by
  by_cases hne : pool = []
  · subst hne
    simp [match_hero_to_crime] at heq
  · obtain ⟨h', heq', hmem⟩ := match_hero_to_crime_some pool crime hne
    rw [heq] at heq'
    exact (Option.some_inj.mp heq') ▸ hmem

theorem filter_name_length (pool : List Hero) (h : Hero)
    (hnodup : (pool.map Hero.name).Nodup) (hmem : h ∈ pool) :
    (pool.filter (fun x => decide ¬(x.name = h.name))).length + 1 = pool.length := by
  induction pool with
  | nil => cases hmem
  | cons x rest ih =>
    simp only [List.map_cons, List.nodup_cons] at hnodup
    rcases List.mem_cons.mp hmem with rfl | hmem'
    · have hrest : rest.filter (fun y => decide ¬(y.name = h.name)) = rest := by
        refine List.filter_eq_self.mpr ?_
        intro y hy
        simp only [decide_eq_true_eq]
        intro hcontra
        exact hnodup.1 (hcontra ▸ List.mem_map_of_mem Hero.name hy)
      rw [List.filter_cons, if_neg (by simp), hrest, List.length_cons]
    · have hx : ¬ x.name = h.name := by
        intro hcontra
        exact hnodup.1 (hcontra ▸ List.mem_map_of_mem Hero.name hmem')
      simp only [List.filter_cons, decide_eq_true_eq]
      rw [if_pos (by simpa using hx)]
      have := ih hnodup.2 hmem'
      simp only [List.length_cons]
      omega

theorem pool_step_names_nodup (pool : List Hero) (h : Hero)
    (hnodup : (pool.map Hero.name).Nodup) :
    (((pool.filter (fun x => decide ¬(x.name = h.name))) ++ [h]).map
      Hero.name).Nodup := by
  rw [List.map_append]
  refine List.Nodup.append ?_ (by simp) ?_
  · exact hnodup.sublist ((List.filter_sublist pool).map Hero.name)
  · intro a ha hb
    simp only [List.map_cons, List.map_nil, List.mem_singleton] at hb
    obtain ⟨x, hx, hxa⟩ := List.mem_map.mp ha
    have := (List.mem_filter.mp hx).2
    simp only [decide_eq_true_eq] at this
    exact this (hxa.trans hb)

theorem dispatch_loop_pool_nodup_length (patrol : List String) (crimes : List Crime) :
    ∀ pool rolls, (pool.map Hero.name).Nodup →
      (((dispatch_loop patrol crimes pool rolls).pool.map Hero.name).Nodup
        ∧ (dispatch_loop patrol crimes pool rolls).pool.length = pool.length) := by
  induction crimes with
  | nil =>
    intro pool rolls hnodup
    exact ⟨hnodup, rfl⟩
  | cons crime rest ih =>
    intro pool rolls hnodup
    simp only [dispatch_loop]
    split
    · cases hmatch : match_hero_to_crime pool crime with
      | some best_hero =>
        dsimp only
        have hmem := match_hero_to_crime_mem hmatch
        have hnodup2 := pool_step_names_nodup pool best_hero hnodup
        have hlen := filter_name_length pool best_hero hnodup hmem
        have hrec := ih ((pool.filter (fun x => decide ¬(x.name = best_hero.name)))
          ++ [best_hero]) rolls.tail hnodup2
        split
        · refine ⟨hrec.1, ?_⟩
          rw [hrec.2]
          simp only [List.length_append, List.length_cons, List.length_nil]
          omega
        · refine ⟨hrec.1, ?_⟩
          rw [hrec.2]
          simp only [List.length_append, List.length_cons, List.length_nil]
          omega
      | none =>
        dsimp only
        exact ih pool rolls hnodup
    · dsimp only
      exact ih pool rolls hnodup

theorem dispatch_loop_crimes_spec (patrol : List String) (crimes : List Crime) :
    ∀ pool rolls,
      List.Forall₂ (fun c c' =>
        c'.ctype = c.ctype ∧ c'.location = c.location ∧ c'.severity = c.severity
        ∧ (c'.status = "Resolved" ∨ c'.status = "Failed"
            ∨ c'.status = "Unhandled" ∨ c'.status = "Outside Patrol")
        ∧ (c'.location ∈ patrol → ¬ c'.status = "Outside Patrol")
        ∧ (c'.location ∉ patrol → c'.status = "Outside Patrol"))
        crimes (dispatch_loop patrol crimes pool rolls).crimes
      ∧ (dispatch_loop patrol crimes pool rolls).successes
          = (dispatch_loop patrol crimes pool rolls).crimes.countP
              (fun c => decide (c.status = "Resolved"))
      ∧ (dispatch_loop patrol crimes pool rolls).failures
          = (dispatch_loop patrol crimes pool rolls).crimes.countP
              (fun c => decide (c.status = "Failed"))
      ∧ (dispatch_loop patrol crimes pool rolls).unhandled
          = (dispatch_loop patrol crimes pool rolls).crimes.countP
              (fun c => decide (c.status = "Unhandled" ∨ c.status = "Outside Patrol"))
      ∧ (dispatch_loop patrol crimes pool rolls).successes
          + (dispatch_loop patrol crimes pool rolls).failures
          + (dispatch_loop patrol crimes pool rolls).unhandled = crimes.length := by
  induction crimes with
  | nil =>
    intro pool rolls
    simp [dispatch_loop]
  | cons crime rest ih =>
    intro pool rolls
    simp only [dispatch_loop]
    split
    · rename_i hin
      cases hmatch : match_hero_to_crime pool crime with
      | some best_hero =>
        dsimp only
        obtain ⟨hfa, hs, hf, hu, hsum⟩ :=
          ih ((pool.filter (fun x => decide ¬(x.name = best_hero.name)))
            ++ [best_hero]) rolls.tail
        split
        · refine ⟨List.Forall₂.cons
            ⟨rfl, rfl, rfl, Or.inl rfl, fun _ => by simp,
              fun hnot => absurd hin hnot⟩ hfa, ?_, ?_, ?_, ?_⟩
          · rw [List.countP_cons, hs]
            simp
          · rw [List.countP_cons, hf]
            simp
          · rw [List.countP_cons, hu]
            simp
          · simp only [List.length_cons]
            omega
        · refine ⟨List.Forall₂.cons
            ⟨rfl, rfl, rfl, Or.inr (Or.inl rfl), fun _ => by simp,
              fun hnot => absurd hin hnot⟩ hfa, ?_, ?_, ?_, ?_⟩
          · rw [List.countP_cons, hs]
            simp
          · rw [List.countP_cons, hf]
            simp
          · rw [List.countP_cons, hu]
            simp
          · simp only [List.length_cons]
            omega
      | none =>
        dsimp only
        obtain ⟨hfa, hs, hf, hu, hsum⟩ := ih pool rolls
        refine ⟨List.Forall₂.cons
          ⟨rfl, rfl, rfl, Or.inr (Or.inr (Or.inl rfl)), fun _ => by simp,
            fun hnot => absurd hin hnot⟩ hfa, ?_, ?_, ?_, ?_⟩
        · rw [List.countP_cons, hs]
          simp
        · rw [List.countP_cons, hf]
          simp
        · rw [List.countP_cons, hu]
          simp
        · simp only [List.length_cons]
          omega
    · rename_i hnotin
      dsimp only
      obtain ⟨hfa, hs, hf, hu, hsum⟩ := ih pool rolls
      refine ⟨List.Forall₂.cons
        ⟨rfl, rfl, rfl, Or.inr (Or.inr (Or.inr rfl)),
          fun hmem => absurd hmem hnotin, fun _ => rfl⟩ hfa, ?_, ?_, ?_, ?_⟩
      · rw [List.countP_cons, hs]
        simp
      · rw [List.countP_cons, hf]
        simp
      · rw [List.countP_cons, hu]
        simp
      · simp only [List.length_cons]
        omega

theorem dispatch_loop_mem_spec (patrol : List String) (crimes : List Crime) :
    ∀ pool rolls, ∀ c ∈ (dispatch_loop patrol crimes pool rolls).crimes,
      (c.status = "Resolved" ∨ c.status = "Failed" ∨ c.status = "Unhandled"
        ∨ c.status = "Outside Patrol")
      ∧ (c.location ∈ patrol → c.status = "Resolved" ∨ c.status = "Failed"
          ∨ c.status = "Unhandled")
      ∧ (c.location ∉ patrol → c.status = "Outside Patrol") := by
  induction crimes with
  | nil =>
    intro pool rolls c hc
    simp [dispatch_loop] at hc
  | cons crime rest ih =>
    intro pool rolls c hc
    simp only [dispatch_loop] at hc
    split at hc
    · rename_i hin
      cases hmatch : match_hero_to_crime pool crime with
      | some best_hero =>
        rw [hmatch] at hc
        dsimp only at hc
        split at hc
        · dsimp only at hc
          rcases List.mem_cons.mp hc with rfl | hc'
          · exact ⟨Or.inl rfl, fun _ => Or.inl rfl, fun hnot => absurd hin hnot⟩
          · exact ih _ rolls.tail c hc'
        · dsimp only at hc
          rcases List.mem_cons.mp hc with rfl | hc'
          · exact ⟨Or.inr (Or.inl rfl), fun _ => Or.inr (Or.inl rfl),
              fun hnot => absurd hin hnot⟩
          · exact ih _ rolls.tail c hc'
      | none =>
        rw [hmatch] at hc
        dsimp only at hc
        rcases List.mem_cons.mp hc with rfl | hc'
        · exact ⟨Or.inr (Or.inr (Or.inl rfl)),
            fun _ => Or.inr (Or.inr rfl), fun hnot => absurd hin hnot⟩
        · exact ih pool rolls c hc'
    · rename_i hnotin
      dsimp only at hc
      rcases List.mem_cons.mp hc with rfl | hc'
      · exact ⟨Or.inr (Or.inr (Or.inr rfl)),
          fun hmem => absurd hmem hnotin, fun _ => rfl⟩
      · exact ih pool rolls c hc'

theorem dispatch_loop_no_unhandled (patrol : List String) (crimes : List Crime) :
    ∀ pool rolls, ¬ pool = [] →
      ∀ c ∈ (dispatch_loop patrol crimes pool rolls).crimes,
        ¬ c.status = "Unhandled" := by
  induction crimes with
  | nil =>
    intro pool rolls hpool c hc
    simp [dispatch_loop] at hc
  | cons crime rest ih =>
    intro pool rolls hpool c hc
    simp only [dispatch_loop] at hc
    split at hc
    · rename_i hin
      cases hmatch : match_hero_to_crime pool crime with
      | some best_hero =>
        rw [hmatch] at hc
        dsimp only at hc
        split at hc
        · dsimp only at hc
          rcases List.mem_cons.mp hc with rfl | hc'
          · simp
          · exact ih _ rolls.tail (by simp) c hc'
        · dsimp only at hc
          rcases List.mem_cons.mp hc with rfl | hc'
          · simp
          · exact ih _ rolls.tail (by simp) c hc'
      | none =>
        obtain ⟨h, heq, -⟩ := match_hero_to_crime_some pool crime hpool
        rw [heq] at hmatch
        cases hmatch
    · dsimp only at hc
      rcases List.mem_cons.mp hc with rfl | hc'
      · simp
      · exact ih pool rolls hpool c hc'

/-- C5: a full Dispatching pass leaves the available-hero pool at its
original size: each dispatched hero is filtered out of the pool and
appended back within the same iteration.  The hypothesis that pool
names are distinct holds for every pool `run_patrol` builds, since
`random.sample(BAT_FAMILY, n)` draws without replacement from a roster
of distinct names. -/
theorem dispatch_loop_preserves_pool_size (patrol_areas : List String)
    (crimes : List Crime) (pool : List Hero) (rolls : List Nat)
    (hnodup : (pool.map Hero.name).Nodup) :
    (dispatch_loop patrol_areas crimes pool rolls).pool.length = pool.length :=
  (dispatch_loop_pool_nodup_length patrol_areas crimes pool rolls hnodup).2

/-- Witness for C5: dispatching one crime from the full roster returns a
pool of the original size 5. -/
theorem dispatch_loop_preserves_pool_size_witness :
    (dispatch_loop ["East End"] [⟨"Robbery", "East End", 5, "Active"⟩]
      BAT_FAMILY [0]).pool.length = BAT_FAMILY.length :=
  dispatch_loop_preserves_pool_size ["East End"]
    [⟨"Robbery", "East End", 5, "Active"⟩] BAT_FAMILY [0] (by decide)

/-- C6: a hero count of 0 or above the roster size (5), or an area count
of 0 or above the catalog size (8), fails validation during
Configuring; the run aborts at once with the configuration error
surfaced in the outcome and no dispatching performed, and `run_patrol`
returns failure. -/
theorem run_patrol_config_error (num_heroes num_areas : Nat)
    (selected_heroes : List Hero) (patrol_areas : List String)
    (crime_rolls : List (Nat × Nat × Nat)) (realloc : Bool)
    (dispatch_rolls : List Nat)
    (h : num_heroes = 0 ∨ BAT_FAMILY.length < num_heroes
      ∨ num_areas = 0 ∨ GOTHAM_AREAS.length < num_areas) :
    run_patrol_full num_heroes num_areas selected_heroes patrol_areas
        crime_rolls realloc dispatch_rolls
      = ⟨false, some PatrolError.configError, [], 0, 0, 0, [], []⟩
    ∧ run_patrol num_heroes num_areas selected_heroes patrol_areas
        crime_rolls realloc dispatch_rolls = false := by
  have h5 : BAT_FAMILY.length = 5 := rfl
  have h8 : GOTHAM_AREAS.length = 8 := rfl
  have hval : validate_patrol_config num_heroes num_areas = false := by
    simp only [validate_patrol_config, Bool.and_eq_false_iff,
      decide_eq_false_iff_not, not_le, h5, h8]
    rw [h5, h8] at h
    omega
  have hfull : run_patrol_full num_heroes num_areas selected_heroes
      patrol_areas crime_rolls realloc dispatch_rolls
      = ⟨false, some PatrolError.configError, [], 0, 0, 0, [], []⟩ := by
    rw [run_patrol_full, if_pos hval]
  exact ⟨hfull, by rw [run_patrol, hfull]⟩

/-- Witness for C6: requesting 0 heroes aborts with a configuration
error. -/
theorem run_patrol_config_error_witness :
    run_patrol_full 0 3 [] ["East End"] [(0, 2, 2)] false [0]
      = ⟨false, some PatrolError.configError, [], 0, 0, 0, [], []⟩
    ∧ run_patrol 0 3 [] ["East End"] [(0, 2, 2)] false [0] = false :=
  run_patrol_config_error 0 3 [] ["East End"] [(0, 2, 2)] false [0]
    (Or.inl rfl)

/-- C8: during Generating, when some generated incident lies outside the
patrol areas and the 70 percent reallocation draw fires, the location
of the highest-priority such incident (per the Priority Sorter) is
appended to the patrol set; if at that moment no hero is available, the
run aborts with the resource error surfaced in the outcome (never
retried) and `run_patrol` returns failure. -/
theorem run_patrol_resource_error (num_heroes num_areas : Nat)
    (patrol_areas : List String) (crime_rolls : List (Nat × Nat × Nat))
    (dispatch_rolls : List Nat)
    (hval : validate_patrol_config num_heroes num_areas = true)
    (hun : ¬ unpatrolled_crimes (generate_crime_events crime_rolls)
        patrol_areas = []) :
    run_patrol_full num_heroes num_areas [] patrol_areas crime_rolls true
        dispatch_rolls
      = ⟨false, some PatrolError.resourceError, generate_crime_events crime_rolls,
          0, 0, 0, [],
          patrol_areas ++
            [((prioritize_crimes (unpatrolled_crimes
                (generate_crime_events crime_rolls) patrol_areas)).headD
                ⟨"", "", 0, ""⟩).location]⟩
    ∧ run_patrol num_heroes num_areas [] patrol_areas crime_rolls true
        dispatch_rolls = false := by
  have hnotfalse : ¬ validate_patrol_config num_heroes num_areas = false := by
    simp [hval]
  have hdo : do_reallocate (generate_crime_events crime_rolls) patrol_areas true
      = true := by
    simp [do_reallocate, hun]
  have hcond : (do_reallocate (generate_crime_events crime_rolls) patrol_areas true
      && decide (([] : List Hero).length = 0)) = true := by
    simp [hdo]
  have hpat : patrol_areas_after_realloc (generate_crime_events crime_rolls)
      patrol_areas true
      = patrol_areas ++
          [((prioritize_crimes (unpatrolled_crimes
              (generate_crime_events crime_rolls) patrol_areas)).headD
              ⟨"", "", 0, ""⟩).location] := by
    rw [patrol_areas_after_realloc, if_pos hdo]
  have hfull : run_patrol_full num_heroes num_areas [] patrol_areas crime_rolls
      true dispatch_rolls
      = ⟨false, some PatrolError.resourceError, generate_crime_events crime_rolls,
          0, 0, 0, [],
          patrol_areas ++
            [((prioritize_crimes (unpatrolled_crimes
                (generate_crime_events crime_rolls) patrol_areas)).headD
                ⟨"", "", 0, ""⟩).location]⟩ := by
    simp only [run_patrol_full]
    rw [if_neg hnotfalse, if_pos hcond, hpat]
  exact ⟨hfull, by rw [run_patrol, hfull]⟩

/-- Witness for C8: one hero requested but none available when the
reallocation fires, with a crime generated in East End while only
Chinatown is patrolled. -/
theorem run_patrol_resource_error_witness :
    run_patrol_full 1 1 [] ["Chinatown"] [(0, 2, 2)] true [0]
      = ⟨false, some PatrolError.resourceError,
          [⟨"Robbery", "East End", 5, "Active"⟩], 0, 0, 0, [],
          ["Chinatown", "East End"]⟩
    ∧ run_patrol 1 1 [] ["Chinatown"] [(0, 2, 2)] true [0] = false := by
  have h := run_patrol_resource_error 1 1 ["Chinatown"] [(0, 2, 2)] [0]
    (by decide) (by decide)
  refine ⟨?_, h.2⟩
  rw [h.1]
  decide

/-- C7: a completed run (no error surfaced) is declared successful
exactly when successes strictly exceed failures and at most one crime
went unhandled; a crime whose location is outside the (possibly
reallocated) patrol set is marked Outside Patrol, and the unhandled
tally counts exactly the Unhandled and Outside Patrol crimes. -/
theorem run_patrol_success_criterion (num_heroes num_areas : Nat)
    (selected_heroes : List Hero) (patrol_areas : List String)
    (crime_rolls : List (Nat × Nat × Nat)) (realloc : Bool)
    (dispatch_rolls : List Nat)
    (herr : (run_patrol_full num_heroes num_areas selected_heroes patrol_areas
        crime_rolls realloc dispatch_rolls).error = none) :
    (run_patrol num_heroes num_areas selected_heroes patrol_areas crime_rolls
        realloc dispatch_rolls = true ↔
      (run_patrol_full num_heroes num_areas selected_heroes patrol_areas
          crime_rolls realloc dispatch_rolls).failures
        < (run_patrol_full num_heroes num_areas selected_heroes patrol_areas
            crime_rolls realloc dispatch_rolls).successes
      ∧ (run_patrol_full num_heroes num_areas selected_heroes patrol_areas
          crime_rolls realloc dispatch_rolls).unhandled ≤ 1)
    ∧ (∀ c ∈ (run_patrol_full num_heroes num_areas selected_heroes patrol_areas
        crime_rolls realloc dispatch_rolls).crimes,
        c.location ∉ (run_patrol_full num_heroes num_areas selected_heroes
          patrol_areas crime_rolls realloc dispatch_rolls).areas →
          c.status = "Outside Patrol")
    ∧ (run_patrol_full num_heroes num_areas selected_heroes patrol_areas
        crime_rolls realloc dispatch_rolls).unhandled
      = (run_patrol_full num_heroes num_areas selected_heroes patrol_areas
          crime_rolls realloc dispatch_rolls).crimes.countP
          (fun c => decide (c.status = "Unhandled" ∨ c.status = "Outside Patrol")) := by
  by_cases hval : validate_patrol_config num_heroes num_areas = false
  · rw [run_patrol_full, if_pos hval] at herr
    exact Option.noConfusion herr
  · by_cases hres : (do_reallocate (generate_crime_events crime_rolls)
        patrol_areas realloc && decide (selected_heroes.length = 0)) = true
    · simp only [run_patrol_full] at herr
      rw [if_neg hval, if_pos hres] at herr
      exact Option.noConfusion herr
    · simp only [run_patrol, run_patrol_full] at herr ⊢
      rw [if_neg hval, if_neg hres] at herr ⊢
      dsimp only
      refine ⟨by simp, ?_, ?_⟩
      · intro c hc hnot
        exact (dispatch_loop_mem_spec _ _ _ _ c hc).2.2 hnot
      · exact (dispatch_loop_crimes_spec _ _ _ _).2.2.2.1

/-- Witness for C7: a one-hero, one-area run with no error path taken. -/
theorem run_patrol_success_criterion_witness :
    run_patrol 1 1 [⟨"Batman", "Combat", 10⟩] ["East End"] [(0, 2, 2)]
        false [0] = true ↔
      (run_patrol_full 1 1 [⟨"Batman", "Combat", 10⟩] ["East End"] [(0, 2, 2)]
          false [0]).failures
        < (run_patrol_full 1 1 [⟨"Batman", "Combat", 10⟩] ["East End"]
            [(0, 2, 2)] false [0]).successes
      ∧ (run_patrol_full 1 1 [⟨"Batman", "Combat", 10⟩] ["East End"]
          [(0, 2, 2)] false [0]).unhandled ≤ 1 :=
  (run_patrol_success_criterion 1 1 [⟨"Batman", "Combat", 10⟩] ["East End"]
    [(0, 2, 2)] false [0] (by decide)).1

/-- C9: under a validated configuration the selected pool has size
`num_heroes ≥ 1`, so the resource-error check (which precedes any
dispatch) never fires, the no-heroes-available Unhandled branch is
never reached (each dispatched hero returns to the pool before the next
crime), and every crime inside the final patrol set ends Resolved or
Failed. -/
theorem run_patrol_pool_never_empty (num_heroes num_areas : Nat)
    (selected_heroes : List Hero) (patrol_areas : List String)
    (crime_rolls : List (Nat × Nat × Nat)) (realloc : Bool)
    (dispatch_rolls : List Nat)
    (hval : validate_patrol_config num_heroes num_areas = true)
    (hsel : selected_heroes.length = num_heroes) :
    (run_patrol_full num_heroes num_areas selected_heroes patrol_areas
        crime_rolls realloc dispatch_rolls).error = none
    ∧ (∀ c ∈ (run_patrol_full num_heroes num_areas selected_heroes patrol_areas
        crime_rolls realloc dispatch_rolls).crimes,
        ¬ c.status = "Unhandled"
        ∧ (c.location ∈ (run_patrol_full num_heroes num_areas selected_heroes
            patrol_areas crime_rolls realloc dispatch_rolls).areas →
            c.status = "Resolved" ∨ c.status = "Failed")) := by
  have hpos : 1 ≤ num_heroes := by
    simp only [validate_patrol_config, Bool.and_eq_true, decide_eq_true_eq] at hval
    exact hval.1.1.1
  have hne : ¬ selected_heroes = [] := by
    intro h
    rw [h] at hsel
    simp only [List.length_nil] at hsel
    omega
  have hnum : ¬ num_heroes = 0 := by omega
  have hnotfalse : ¬ validate_patrol_config num_heroes num_areas = false := by
    simp [hval]
  have hres : ¬ ((do_reallocate (generate_crime_events crime_rolls)
      patrol_areas realloc && decide (selected_heroes.length = 0)) = true) := by
    simp [hsel, hnum]
  simp only [run_patrol_full]
  rw [if_neg hnotfalse, if_neg hres]
  dsimp only
  refine ⟨rfl, ?_⟩
  intro c hc
  have hnu := dispatch_loop_no_unhandled _ _ _ _ hne c hc
  refine ⟨hnu, fun hmem => ?_⟩
  have h1 := (dispatch_loop_mem_spec _ _ _ _ c hc).2.1 hmem
  tauto

/-- Witness for C9: a validated one-hero run; the error field is `none`
and the single in-patrol crime is Resolved or Failed. -/
theorem run_patrol_pool_never_empty_witness :
    (run_patrol_full 1 1 [⟨"Batman", "Combat", 10⟩] ["East End"] [(0, 2, 2)]
      false [0]).error = none :=
  (run_patrol_pool_never_empty 1 1 [⟨"Batman", "Combat", 10⟩] ["East End"]
    [(0, 2, 2)] false [0] (by decide) (by decide)).1

/-- C10: when dispatching completes without an error, the processed list
pairs up one-to-one with the prioritized generated incidents: type,
location and severity unchanged, every status turned from the Active it
was generated with into exactly one of Resolved, Failed, Unhandled or
Outside Patrol, each tally counting exactly the crimes with the
corresponding statuses, and successes + failures + unhandled equals the
number of generated incidents. -/
theorem run_patrol_status_partition (num_heroes num_areas : Nat)
    (selected_heroes : List Hero) (patrol_areas : List String)
    (crime_rolls : List (Nat × Nat × Nat)) (realloc : Bool)
    (dispatch_rolls : List Nat)
    (herr : (run_patrol_full num_heroes num_areas selected_heroes patrol_areas
        crime_rolls realloc dispatch_rolls).error = none) :
    List.Forall₂ (fun c c' =>
        c'.ctype = c.ctype ∧ c'.location = c.location ∧ c'.severity = c.severity
        ∧ (c'.status = "Resolved" ∨ c'.status = "Failed"
            ∨ c'.status = "Unhandled" ∨ c'.status = "Outside Patrol"))
      (prioritize_crimes (generate_crime_events crime_rolls))
      (run_patrol_full num_heroes num_areas selected_heroes patrol_areas
        crime_rolls realloc dispatch_rolls).crimes
    ∧ (∀ c ∈ generate_crime_events crime_rolls, c.status = "Active")
    ∧ (run_patrol_full num_heroes num_areas selected_heroes patrol_areas
        crime_rolls realloc dispatch_rolls).successes
      = (run_patrol_full num_heroes num_areas selected_heroes patrol_areas
          crime_rolls realloc dispatch_rolls).crimes.countP
          (fun c => decide (c.status = "Resolved"))
    ∧ (run_patrol_full num_heroes num_areas selected_heroes patrol_areas
        crime_rolls realloc dispatch_rolls).failures
      = (run_patrol_full num_heroes num_areas selected_heroes patrol_areas
          crime_rolls realloc dispatch_rolls).crimes.countP
          (fun c => decide (c.status = "Failed"))
    ∧ (run_patrol_full num_heroes num_areas selected_heroes patrol_areas
        crime_rolls realloc dispatch_rolls).unhandled
      = (run_patrol_full num_heroes num_areas selected_heroes patrol_areas
          crime_rolls realloc dispatch_rolls).crimes.countP
          (fun c => decide (c.status = "Unhandled" ∨ c.status = "Outside Patrol"))
    ∧ (run_patrol_full num_heroes num_areas selected_heroes patrol_areas
        crime_rolls realloc dispatch_rolls).successes
      + (run_patrol_full num_heroes num_areas selected_heroes patrol_areas
          crime_rolls realloc dispatch_rolls).failures
      + (run_patrol_full num_heroes num_areas selected_heroes patrol_areas
          crime_rolls realloc dispatch_rolls).unhandled
      = (generate_crime_events crime_rolls).length := by
  by_cases hval : validate_patrol_config num_heroes num_areas = false
  · rw [run_patrol_full, if_pos hval] at herr
    exact Option.noConfusion herr
  · by_cases hres : (do_reallocate (generate_crime_events crime_rolls)
        patrol_areas realloc && decide (selected_heroes.length = 0)) = true
    · simp only [run_patrol_full] at herr
      rw [if_neg hval, if_pos hres] at herr
      exact Option.noConfusion herr
    · simp only [run_patrol_full] at herr ⊢
      rw [if_neg hval, if_neg hres] at herr ⊢
      dsimp only
      have hspec := dispatch_loop_crimes_spec
        (patrol_areas_after_realloc (generate_crime_events crime_rolls)
          patrol_areas realloc)
        (prioritize_crimes (generate_crime_events crime_rolls))
        selected_heroes dispatch_rolls
      refine ⟨List.Forall₂.imp ?_ hspec.1, ?_, hspec.2.1, hspec.2.2.1,
        hspec.2.2.2.1, ?_⟩
      · intro c c' h
        exact ⟨h.1, h.2.1, h.2.2.1, h.2.2.2.1⟩
      · intro c hc
        exact (generate_crime_events_go_mem crime_rolls [] c hc).1
      · have hsum := hspec.2.2.2.2
        have hlen : (prioritize_crimes (generate_crime_events crime_rolls)).length
            = (generate_crime_events crime_rolls).length :=
          List.length_insertionSort _ _
        omega

/-- Witness for C10: the tallies of the one-hero run sum to the single
generated incident. -/
theorem run_patrol_status_partition_witness :
    (run_patrol_full 1 1 [⟨"Batman", "Combat", 10⟩] ["East End"] [(0, 2, 2)]
        false [0]).successes
      + (run_patrol_full 1 1 [⟨"Batman", "Combat", 10⟩] ["East End"]
          [(0, 2, 2)] false [0]).failures
      + (run_patrol_full 1 1 [⟨"Batman", "Combat", 10⟩] ["East End"]
          [(0, 2, 2)] false [0]).unhandled
      = (generate_crime_events [(0, 2, 2)]).length :=
  (run_patrol_status_partition 1 1 [⟨"Batman", "Combat", 10⟩] ["East End"]
    [(0, 2, 2)] false [0] (by decide)).2.2.2.2.2
